import Mathlib

/-!
Verification of the matchmaking and session-orchestration engine of the
checkers server (`src/game_master.rs`).

The board-game rule engine (`crate::checkers`, the types `CheckersGame`,
`JumpResult`, `Table`, `Team`) is an external collaborator of the code
under verification; it is modelled abstractly by the structure `Engine`
below, whose fields mirror the narrow interface the orchestrator consumes
(`new`, `jump`, `team_on_turn`, `winner`, `table`).

Actix `Recipient<_>` channels are modelled as channel identifiers
(`ChanId`); the environment `env : ChanId → Bool` says which channels
currently accept delivery (`do_send` returns `Ok` iff `env c = true`).
Every operation returns, besides its new state, the list of delivery
attempts it made (in order) and a completion flag: `false` means the Rust
code panicked (a failed `.unwrap()` or `unimplemented!()`), abandoning the
rest of the handler while keeping the mutations already performed.
-/

/-- Rust `Team` from `crate::checkers` (the spec's `Side`): `{Light, Dark}`. -/
inductive Team where
  | Light : Team
  | Dark : Team
deriving DecidableEq, Repr

/-- Rust `JumpResult` from `crate::checkers`: the rule engine's move outcome,
`Good { captured_piece, crowned }` or `Bad`. -/
inductive JumpResult where
  | Good : Option Nat → Bool → JumpResult
  | Bad : JumpResult
deriving DecidableEq, Repr

/-- Rust `PlayerID(pub usize)`: opaque player identifier. -/
abbrev PlayerID := Nat

/-- Rust `GameID(pub usize)`: opaque match identifier. -/
abbrev GameID := Nat

/-- Channel identifier standing for an actix `Recipient<_>`. -/
abbrev ChanId := Nat

/-- The messages the orchestrator delivers: `GameFound`, `GameState`
(state snapshot), `GameUpdate` (move update) and `BadJump` (move
rejected), with the field sets of `src/game_master.rs`. `T` is the opaque
board type (`Table`). The two `Nat` arguments of `gameUpdate` are the
`from` and `to` squares. -/
inductive Msg (T : Type) where
  | gameFound : GameID → PlayerID → PlayerID → Msg T
  | gameState : T → Team → Option Team → Msg T
  | gameUpdate : Nat → Nat → Bool → Option Nat → Team → Option Team → Msg T
  | badJump : Msg T
deriving DecidableEq

/-- A delivery attempt: target channel and message. -/
abbrev Sent (T : Type) := ChanId × Msg T

/-- The rule-engine interface consumed by the orchestrator (external to
the verified code): `CheckersGame::new`, `CheckersGame::jump` (which
mutates the game and returns a `JumpResult`, modelled by returning the
result together with the successor state), `team_on_turn`, `winner`,
`table`. `G` is the engine's state type, `T` the board type. -/
structure Engine (G T : Type) where
  new : G
  jump : G → Nat → Nat → JumpResult × G
  team_on_turn : G → Team
  winner : G → Option Team
  table : G → T

/-- Rust `Matchup`: a matchup request — the requesting player's id plus the
channels the orchestrator must hold to reach that player later. -/
structure Matchup where
  game_found_recipient : ChanId
  game_update_recipient : ChanId
  game_state_recipient : ChanId
  bad_jump_recipient : ChanId
  player_id : PlayerID
deriving DecidableEq, Repr

/-- Rust `Matchmaker`: at most one pending matchup request plus the match-id
counter. -/
structure Matchmaker where
  enqueued : Option Matchup
  last_match_id : GameID
deriving DecidableEq, Repr

/-- Rust `Matchmaker::new()`. -/
def Matchmaker.new : Matchmaker :=
  { enqueued := none, last_match_id := 0 }

/-- Rust `Matchmaker::matchup`. The `rand::random()` coin flip is an explicit
input `coin`; `coin = true` corresponds to `rand::random()` returning
`true`, which swaps the side assignment (the previously enqueued request
becomes Light, the incoming one Dark). Returns the new matchmaker state
and the optional pairing `(light, dark, match_id)`. -/
def Matchmaker.matchup (m : Matchmaker) (mu : Matchup) (coin : Bool) :
    Matchmaker × Option (Matchup × Matchup × GameID) :=
  match m.enqueued with
  | some enqueued_matchup =>
    let newLast := m.last_match_id + 1
    let light := if coin then enqueued_matchup else mu
    let dark := if coin then mu else enqueued_matchup
    ({ enqueued := none, last_match_id := newLast }, some (light, dark, newLast - 1))
  | none =>
    ({ enqueued := some mu, last_match_id := m.last_match_id }, none)

/-- Feed a list of matchup requests (each with the coin its pairing event
would consume) through a matchmaker, collecting the produced pairings in
order. -/
def runMatchmaker : Matchmaker → List (Matchup × Bool) → Matchmaker × List (Matchup × Matchup × GameID)
  | m, [] => (m, [])
  | m, (mu, c) :: rest =>
    match m.matchup mu c with
    | (m', none) => runMatchmaker m' rest
    | (m', some p) => ((runMatchmaker m' rest).1, p :: (runMatchmaker m' rest).2)

/-- Modelled from the spec (section 8, first testable property): the
expected pairing discipline — the k-th and (k+1)-th requests (odd k,
1-based) are paired together with consecutive match ids, each pairing's
coin deciding which of the two becomes Light. The first argument is the
request currently in the pending slot, the second the next match id. -/
def specPairsAux : Option Matchup → Nat → List (Matchup × Bool) → List (Matchup × Matchup × GameID)
  | none, _, [] => []
  | none, n, (a, _) :: rest => specPairsAux (some a) n rest
  | some _, _, [] => []
  | some a, n, (b, cb) :: rest =>
    (if cb then (a, b, n) else (b, a, n)) :: specPairsAux none (n + 1) rest

/-- Rust `Player`: one participant of an ongoing game — id plus the three
notification channels the session holds for them. -/
structure Player where
  id : PlayerID
  game_state_recipient : ChanId
  game_update_recipient : ChanId
  bad_jump_recipient : ChanId
deriving DecidableEq, Repr

/-- Rust `OngoingGame`: one game session — a rule-engine instance and the two
participants. -/
structure OngoingGame (G : Type) where
  game : G
  light_player : Player
  dark_player : Player
deriving DecidableEq, Repr

variable {G T : Type}

/-- Rust `OngoingGame::team`: the side of a participant, `none` for a
non-participant; the light player's id is checked first. -/
def OngoingGame.team (g : OngoingGame G) (player_id : PlayerID) : Option Team :=
  if g.light_player.id = player_id then some Team.Light
  else if g.dark_player.id = player_id then some Team.Dark
  else none

/-- Rust `OngoingGame::is_on_turn`: whether the given player's side is the
side the rule engine currently has on turn. -/
def OngoingGame.is_on_turn (E : Engine G T) (g : OngoingGame G) (player_id : PlayerID) : Bool :=
  match g.team player_id with
  | some team => decide (team = E.team_on_turn g.game)
  | none => false

/-- Rust `OngoingGame::bad_jump_recipient`: the rejection channel of the given
participant, `none` for a non-participant. -/
def OngoingGame.bad_jump_recipient (g : OngoingGame G) (player_id : PlayerID) : Option ChanId :=
  if g.light_player.id = player_id then some g.light_player.bad_jump_recipient
  else if g.dark_player.id = player_id then some g.dark_player.bad_jump_recipient
  else none

/-- Rust `OngoingGame::send_game_state`: build the `GameState` snapshot from
the current engine state and `do_send(..).unwrap()` it to the light
player's and then the dark player's state channel. Returns the delivery
attempts made and `false` if an `unwrap` panicked (in which case later
attempts were not made). -/
def OngoingGame.send_game_state (E : Engine G T) (env : ChanId → Bool) (g : OngoingGame G) :
    List (Sent T) × Bool :=
  let msg : Msg T := Msg.gameState (E.table g.game) (E.team_on_turn g.game) (E.winner g.game)
  if env g.light_player.game_state_recipient then
    ([(g.light_player.game_state_recipient, msg), (g.dark_player.game_state_recipient, msg)],
      env g.dark_player.game_state_recipient)
  else
    ([(g.light_player.game_state_recipient, msg)], false)

/-- Rust `OngoingGame::send_updates`: build the `GameUpdate` payload (querying
the engine's post-move turn holder and winner) and `do_send(..).unwrap()`
it to the light player's and then the dark player's update channel. -/
def OngoingGame.send_updates (E : Engine G T) (env : ChanId → Bool) (g : OngoingGame G)
    (fromSq toSq : Nat) (captured_piece : Option Nat) (crowned : Bool) :
    List (Sent T) × Bool :=
  let msg : Msg T :=
    Msg.gameUpdate fromSq toSq crowned captured_piece (E.team_on_turn g.game) (E.winner g.game)
  if env g.light_player.game_update_recipient then
    ([(g.light_player.game_update_recipient, msg), (g.dark_player.game_update_recipient, msg)],
      env g.dark_player.game_update_recipient)
  else
    ([(g.light_player.game_update_recipient, msg)], false)

/-- Rust `OngoingGame::send_bad_jump`: deliver `BadJump` to the requesting
player's rejection channel, if they are a participant. -/
def OngoingGame.send_bad_jump (env : ChanId → Bool) (g : OngoingGame G) (player_id : PlayerID) :
    List (Sent T) × Bool :=
  match g.bad_jump_recipient player_id with
  | some c => ([(c, Msg.badJump)], env c)
  | none => ([], true)

/-- Rust `OngoingGame::jump`: the session's `attempt_move`. If the requester
is on turn, delegate to the engine's `jump` (which mutates the stored
game), then broadcast `GameUpdate` on `Good` or send `BadJump` on `Bad`;
otherwise send `BadJump` without touching the engine. Returns the new
session, the delivery attempts, and `false` on panic. -/
def OngoingGame.jump (E : Engine G T) (env : ChanId → Bool) (g : OngoingGame G)
    (player_id : PlayerID) (fromSq toSq : Nat) :
    OngoingGame G × List (Sent T) × Bool :=
  if OngoingGame.is_on_turn E g player_id then
    match E.jump g.game fromSq toSq with
    | (JumpResult.Good captured_piece crowned, game2) =>
      let g2 : OngoingGame G := { g with game := game2 }
      (g2, OngoingGame.send_updates E env g2 fromSq toSq captured_piece crowned)
    | (JumpResult.Bad, game2) =>
      let g2 : OngoingGame G := { g with game := game2 }
      (g2, OngoingGame.send_bad_jump env g2 player_id)
  else
    (g, OngoingGame.send_bad_jump env g player_id)

/-- Association-list lookup modelling `HashMap::get` (with `Nat` keys);
the most recently inserted binding for a key is found first. -/
def lookupA {β : Type} : List (Nat × β) → Nat → Option β
  | [], _ => none
  | (k, v) :: l, k2 => if k = k2 then some v else lookupA l k2

/-- Association-list in-place value update modelling `HashMap::get_mut`
followed by mutation: every binding of the key is replaced, nothing is
inserted or removed. -/
def updateA {β : Type} (l : List (Nat × β)) (k : Nat) (v : β) : List (Nat × β) :=
  l.map (fun p => if p.1 = k then (k, v) else p)

/-- Rust `GameMaster`: the orchestrator — matchmaker, `games : HashMap<GameID,
OngoingGame>` and `players_in_games : HashMap<PlayerID, GameID>`, the two
hash maps modelled as association lists. -/
structure GameMaster (G : Type) where
  matchmaker : Matchmaker
  games : List (GameID × OngoingGame G)
  players_in_games : List (PlayerID × GameID)
deriving DecidableEq, Repr

/-- Rust `GameMaster::new()`. -/
def GameMaster.new : GameMaster G :=
  { matchmaker := Matchmaker.new, games := [], players_in_games := [] }

/-- The `OngoingGame` built by `Handler<Matchup>` from the two paired
requests and a fresh rule-engine instance (`CheckersGame::new()`). -/
def pairedGame (E : Engine G T) (light dark : Matchup) : OngoingGame G :=
  { game := E.new,
    light_player :=
      { id := light.player_id,
        game_state_recipient := light.game_state_recipient,
        game_update_recipient := light.game_update_recipient,
        bad_jump_recipient := light.bad_jump_recipient },
    dark_player :=
      { id := dark.player_id,
        game_state_recipient := dark.game_state_recipient,
        game_update_recipient := dark.game_update_recipient,
        bad_jump_recipient := dark.bad_jump_recipient } }

/-- The pairing branch of `Handler<Matchup>::handle`: build the session,
`send_game_state()` (panicking there keeps the registry untouched),
insert it under the new game id, map the light then the dark player id to
the game id, then `do_send(GameFound).unwrap()` to the light then the
dark player. `gm1` is the orchestrator state with the matchmaker already
mutated. -/
def GameMaster.install_game (E : Engine G T) (env : ChanId → Bool) (gm1 : GameMaster G)
    (light dark : Matchup) (game_id : GameID) : GameMaster G × List (Sent T) × Bool :=
  let game := pairedGame E light dark
  let r1 := OngoingGame.send_game_state E env game
  if r1.2 then
    let gm2 : GameMaster G :=
      { gm1 with
        games := (game_id, game) :: gm1.games,
        players_in_games :=
          (dark.player_id, game_id) :: (light.player_id, game_id) :: gm1.players_in_games }
    let gf : Msg T := Msg.gameFound game_id light.player_id dark.player_id
    if env light.game_found_recipient then
      (gm2, r1.1 ++ [(light.game_found_recipient, gf), (dark.game_found_recipient, gf)],
        env dark.game_found_recipient)
    else
      (gm2, r1.1 ++ [(light.game_found_recipient, gf)], false)
  else
    (gm1, r1.1, false)

/-- Rust `Handler<Matchup> for GameMaster`: delegate to the matchmaker; on a
pairing, create and install the session (see `GameMaster.install_game`). -/
def GameMaster.handle_matchup (E : Engine G T) (env : ChanId → Bool) (gm : GameMaster G)
    (msg : Matchup) (coin : Bool) : GameMaster G × List (Sent T) × Bool :=
  match gm.matchmaker.matchup msg coin with
  | (mm2, none) => ({ gm with matchmaker := mm2 }, [], true)
  | (mm2, some (light, dark, game_id)) =>
    GameMaster.install_game E env { gm with matchmaker := mm2 } light dark game_id

/-- The body of `Handler<Jump>` once the player's game id is known:
resolve the game (`.expect(..)` panic when absent) and delegate to
`OngoingGame::jump`, the session being mutated in place (`get_mut`). -/
def GameMaster.jump_in_game (E : Engine G T) (env : ChanId → Bool) (gm : GameMaster G)
    (game_id : GameID) (player_id : PlayerID) (fromSq toSq : Nat) :
    GameMaster G × List (Sent T) × Bool :=
  match lookupA gm.games game_id with
  | some og =>
    let r := OngoingGame.jump E env og player_id fromSq toSq
    ({ gm with games := updateA gm.games game_id r.1 }, r.2.1, r.2.2)
  | none => (gm, [], false)

/-- Rust `Handler<Jump> for GameMaster`: look the player up in
`players_in_games` (`unimplemented!()`, i.e. panic, when absent) and
continue with `jump_in_game` on the mapped game id. -/
def GameMaster.handle_jump (E : Engine G T) (env : ChanId → Bool) (gm : GameMaster G)
    (player_id : PlayerID) (fromSq toSq : Nat) : GameMaster G × List (Sent T) × Bool :=
  match lookupA gm.players_in_games player_id with
  | some game_id => GameMaster.jump_in_game E env gm game_id player_id fromSq toSq
  | none => (gm, [], false)

/-- An inbound request: enqueue-for-match (with the coin its pairing
event would consume) or a move request. -/
inductive Req where
  | matchupReq : Matchup → Bool → Req
  | jumpReq : PlayerID → Nat → Nat → Req
deriving DecidableEq, Repr

/-- Dispatch one request to the matching handler. -/
def GameMaster.step (E : Engine G T) (env : ChanId → Bool) (gm : GameMaster G) :
    Req → GameMaster G × List (Sent T) × Bool
  | Req.matchupReq mu coin => GameMaster.handle_matchup E env gm mu coin
  | Req.jumpReq player_id fromSq toSq => GameMaster.handle_jump E env gm player_id fromSq toSq

/-- Process a request sequence one at a time (the orchestrator is a
single serialized authority); a panicking handler ends the run with the
mutations it made before panicking. -/
def runGM (E : Engine G T) (env : ChanId → Bool) : GameMaster G → List Req → GameMaster G
  | gm, [] => gm
  | gm, r :: rs =>
    if (GameMaster.step E env gm r).2.2 then runGM E env (GameMaster.step E env gm r).1 rs
    else (GameMaster.step E env gm r).1

/-- The session-registry bookkeeping invariant that actually holds of the
orchestrator: every mapped player id points at a stored session of which
it is a participant; both participants of every stored session are
present in the player mapping; and every stored game id is below the
matchmaker's counter (so fresh ids never collide). -/
def GameMaster.Inv (gm : GameMaster G) : Prop :=
  (∀ pid gid, lookupA gm.players_in_games pid = some gid →
    ∃ og, lookupA gm.games gid = some og ∧
      (og.light_player.id = pid ∨ og.dark_player.id = pid))
  ∧ (∀ gid og, lookupA gm.games gid = some og →
    (lookupA gm.players_in_games og.light_player.id).isSome = true ∧
    (lookupA gm.players_in_games og.dark_player.id).isSome = true)
  ∧ (∀ gid, (lookupA gm.games gid).isSome = true → gid < gm.matchmaker.last_match_id)

/-- A state the orchestrator can be in after some handled request
sequence, starting from `GameMaster::new()`. -/
def GameMaster.Reachable (E : Engine G T) (env : ChanId → Bool) (gm : GameMaster G) : Prop :=
  ∃ rs : List Req, runGM E env GameMaster.new rs = gm

/-- Environment in which every channel accepts delivery. -/
def envTrue : ChanId → Bool := fun _ => true

/-- A concrete rule-engine instance used as a test harness: the game
state counts accepted moves, turn alternates with its parity, and there
is never a winner. -/
def unitEngine : Engine Nat Unit :=
  { new := 0,
    jump := fun g _ _ => (JumpResult.Good none false, g + 1),
    team_on_turn := fun g => if g % 2 = 0 then Team.Light else Team.Dark,
    winner := fun _ => none,
    table := fun _ => () }

/-- A concrete rule-engine instance that reports a winner from the start
yet still accepts moves — exhibiting that the session layer itself never
checks for a winner. -/
def cheatEngine : Engine Nat Unit :=
  { new := 0,
    jump := fun g _ _ => (JumpResult.Good none false, g + 1),
    team_on_turn := fun _ => Team.Light,
    winner := fun _ => some Team.Light,
    table := fun _ => () }

/-- A concrete rule-engine instance that rejects every move (without
mutating) once it reports a winner (which happens from state 5 on). -/
def finEngine : Engine Nat Unit :=
  { new := 0,
    jump := fun g _ _ => if 5 ≤ g then (JumpResult.Bad, g) else (JumpResult.Good none false, g + 1),
    team_on_turn := fun g => if g % 2 = 0 then Team.Light else Team.Dark,
    winner := fun g => if 5 ≤ g then some Team.Light else none,
    table := fun _ => () }

/-- Concrete matchup request: player id plus a block of channel ids. -/
def mkMu (pid : PlayerID) (base : ChanId) : Matchup :=
  { game_found_recipient := base,
    game_update_recipient := base + 1,
    game_state_recipient := base + 2,
    bad_jump_recipient := base + 3,
    player_id := pid }

/-- Concrete participant: player id plus a block of channel ids. -/
def mkPlayer (pid : PlayerID) (base : ChanId) : Player :=
  { id := pid,
    game_state_recipient := base,
    game_update_recipient := base + 1,
    bad_jump_recipient := base + 2 }

/-- Concrete session: light player 1 (channels 10..12), dark player 2
(channels 20..22), engine state 0. -/
def cgW : OngoingGame Nat :=
  { game := 0, light_player := mkPlayer 1 10, dark_player := mkPlayer 2 20 }

/-- Concrete session like `cgW` but with engine state 6 (a `finEngine`
state with a winner). -/
def cg6 : OngoingGame Nat :=
  { game := 6, light_player := mkPlayer 1 10, dark_player := mkPlayer 2 20 }

/-- Concrete matchup requests for orchestrator runs. -/
def muA : Matchup := mkMu 1 100

/-- Second concrete matchup request. -/
def muB : Matchup := mkMu 2 200

/-- Third concrete matchup request. -/
def muC : Matchup := mkMu 3 300

/-- Player 1 enqueues again with fresh channels while already in a game. -/
def muA2 : Matchup := mkMu 1 400

/-- Two matchups: players 1 and 2 get paired into game 0. -/
def rsAB : List Req := [Req.matchupReq muA false, Req.matchupReq muB false]

/-- Four matchups: players 1 and 2 get paired into game 0, then player 1
re-enqueues and is paired with player 3 into game 1. -/
def rs4 : List Req :=
  [Req.matchupReq muA false, Req.matchupReq muB false,
   Req.matchupReq muA2 false, Req.matchupReq muC false]

/-- The orchestrator state after `rs4`. -/
def gm4 : GameMaster Nat := runGM unitEngine envTrue GameMaster.new rs4

/-- The orchestrator state after `rsAB` (players 1 and 2 in game 0). -/
def gmAB : GameMaster Nat := runGM unitEngine envTrue GameMaster.new rsAB

/-- Orchestrator state with the request of player 1 pending. -/
def gmA : GameMaster Nat :=
  { matchmaker := { enqueued := some muA, last_match_id := 0 },
    games := [], players_in_games := [] }

theorem runMatchmaker_eq_specPairsAux (rs : List (Matchup × Bool)) :
    ∀ pend n, (runMatchmaker { enqueued := pend, last_match_id := n } rs).2 = specPairsAux pend n rs := by
  induction rs with
  | nil => intro pend n; cases pend <;> rfl
  | cons r rest ih =>
    intro pend n
    obtain ⟨mu, c⟩ := r
    cases pend with
    | none =>
      simp only [runMatchmaker, Matchmaker.matchup, specPairsAux]
      exact ih (some mu) n
    | some a =>
      simp only [runMatchmaker, Matchmaker.matchup, specPairsAux, Nat.add_sub_cancel]
      rw [ih none (n + 1)]
      cases c <;> rfl

theorem specPairsAux_ids (rs : List (Matchup × Bool)) :
    ∀ pend n, (specPairsAux pend n rs).map (fun p => p.2.2) =
      List.range' n (specPairsAux pend n rs).length := by
  induction rs with
  | nil => intro pend n; cases pend <;> rfl
  | cons r rest ih =>
    intro pend n
    obtain ⟨mu, c⟩ := r
    cases pend with
    | none => simpa only [specPairsAux] using ih (some mu) n
    | some a =>
      simp only [specPairsAux, List.map_cons, List.length_cons, List.range'_succ, ih none (n + 1)]
      cases c <;> rfl

theorem updateA_cons {β : Type} (k1 : Nat) (v1 : β) (l : List (Nat × β)) (k : Nat) (v : β) :
    updateA ((k1, v1) :: l) k v = (if k1 = k then (k, v) else (k1, v1)) :: updateA l k v := by
  by_cases hk : k1 = k <;> simp [updateA, hk]

theorem lookupA_updateA_self {β : Type} (l : List (Nat × β)) (k : Nat) (v : β) :
    ∀ w, lookupA l k = some w → lookupA (updateA l k v) k = some v := by
  induction l with
  | nil => intro w h; simp [lookupA] at h
  | cons p l ih =>
    intro w h
    obtain ⟨k1, v1⟩ := p
    rw [updateA_cons]
    by_cases hk : k1 = k
    · rw [if_pos hk]
      simp [lookupA]
    · rw [if_neg hk]
      simp only [lookupA, if_neg hk] at h ⊢
      exact ih w h

theorem lookupA_updateA_ne {β : Type} (l : List (Nat × β)) (k k2 : Nat) (v : β) (h : k2 ≠ k) :
    lookupA (updateA l k v) k2 = lookupA l k2 := by
  induction l with
  | nil => rfl
  | cons p l ih =>
    obtain ⟨k1, v1⟩ := p
    rw [updateA_cons]
    by_cases hk : k1 = k
    · rw [if_pos hk]
      have hk1 : ¬ k1 = k2 := by rw [hk]; exact Ne.symm h
      simp only [lookupA, if_neg (Ne.symm h), if_neg hk1]
      exact ih
    · rw [if_neg hk]
      by_cases hk2 : k1 = k2
      · simp [lookupA, hk2]
      · simp only [lookupA, if_neg hk2]
        exact ih

theorem lookupA_updateA_isSome {β : Type} (l : List (Nat × β)) (k k2 : Nat) (v : β) :
    (lookupA (updateA l k v) k2).isSome = (lookupA l k2).isSome := by
  induction l with
  | nil => rfl
  | cons p l ih =>
    obtain ⟨k1, v1⟩ := p
    rw [updateA_cons]
    by_cases hk : k1 = k
    · rw [if_pos hk]
      by_cases hk2 : k = k2
      · have hk1 : k1 = k2 := hk.trans hk2
        simp [lookupA, hk2, hk1]
      · have hk1 : ¬ k1 = k2 := by rw [hk]; exact hk2
        simp only [lookupA, if_neg hk2, if_neg hk1]
        exact ih
    · rw [if_neg hk]
      by_cases hk2 : k1 = k2
      · simp [lookupA, hk2]
      · simp only [lookupA, if_neg hk2]
        exact ih

theorem lookupA_cons_isSome {β : Type} (l : List (Nat × β)) (k k1 : Nat) (v1 : β) :
    (lookupA l k).isSome = true → (lookupA ((k1, v1) :: l) k).isSome = true := by
  intro h
  by_cases hk : k1 = k
  · simp [lookupA, hk]
  · simpa [lookupA, hk] using h

theorem jump_preserves_players (E : Engine G T) (env : ChanId → Bool) (g : OngoingGame G)
    (player_id : PlayerID) (fromSq toSq : Nat) :
    (OngoingGame.jump E env g player_id fromSq toSq).1.light_player = g.light_player ∧
    (OngoingGame.jump E env g player_id fromSq toSq).1.dark_player = g.dark_player := by
  unfold OngoingGame.jump
  by_cases hont : OngoingGame.is_on_turn E g player_id
  · rw [if_pos hont]
    rcases hj : E.jump g.game fromSq toSq with ⟨res, g2⟩
    cases res <;> exact ⟨rfl, rfl⟩
  · rw [if_neg hont]
    exact ⟨rfl, rfl⟩

/-- C1: for every session and every move request from a participant whose
side is not the side currently on turn per the rule engine, `jump` leaves
the session state unchanged for every engine `E` (so no engine move call
is made and nothing is mutated) and makes exactly one delivery attempt:
`BadJump` on the requester's own rejection channel — no message goes to
the opponent. The attempt succeeds precisely when that channel accepts
delivery (`env c`). -/
theorem C1_off_turn_move_rejected (E : Engine G T) (env : ChanId → Bool) (g : OngoingGame G)
    (player_id : PlayerID) (fromSq toSq : Nat) (side : Team)
    (hteam : g.team player_id = some side) (hturn : side ≠ E.team_on_turn g.game) :
    ∃ c, g.bad_jump_recipient player_id = some c ∧
      OngoingGame.jump E env g player_id fromSq toSq = (g, [(c, Msg.badJump)], env c) := by
  have hont : OngoingGame.is_on_turn E g player_id = false := by
    simp [OngoingGame.is_on_turn, hteam, hturn]
  unfold OngoingGame.team at hteam
  unfold OngoingGame.jump
  rw [hont]
  by_cases h1 : g.light_player.id = player_id
  · refine ⟨g.light_player.bad_jump_recipient, ?_, ?_⟩
    · simp [OngoingGame.bad_jump_recipient, h1]
    · simp [OngoingGame.send_bad_jump, OngoingGame.bad_jump_recipient, h1]
  · by_cases h2 : g.dark_player.id = player_id
    · refine ⟨g.dark_player.bad_jump_recipient, ?_, ?_⟩
      · simp [OngoingGame.bad_jump_recipient, h1, h2]
      · simp [OngoingGame.send_bad_jump, OngoingGame.bad_jump_recipient, h1, h2]
    · rw [if_neg h1, if_neg h2] at hteam
      exact absurd hteam (by simp)

/-- C1 witness: in the concrete session `cgW` (light player 1, dark
player 2, `unitEngine` state 0 with Light on turn), a move by the dark
player 2 is rejected to their own channel 22 only. -/
theorem C1_witness :
    ∃ c, cgW.bad_jump_recipient 2 = some c ∧
      OngoingGame.jump unitEngine envTrue cgW 2 0 1 = (cgW, [(c, Msg.badJump)], envTrue c) :=
  C1_off_turn_move_rejected unitEngine envTrue cgW 2 0 1 Team.Dark (by decide) (by decide)

/-- C2: for every session and every move by the on-turn participant that
the rule engine accepts, `jump` installs the engine's successor state and
makes exactly two delivery attempts, one `GameUpdate` on each
participant's move-update channel, whose `team_on_turn` field is the
engine's turn holder after the move and whose `winner` field is the
engine's winner after the move (`some` iff the engine reports a winner);
when both channels accept delivery the handler completes. -/
theorem C2_accepted_move_broadcast (E : Engine G T) (env : ChanId → Bool) (g : OngoingGame G)
    (player_id : PlayerID) (fromSq toSq : Nat) (side : Team) (captured_piece : Option Nat)
    (crowned : Bool) (game2 : G)
    (hteam : g.team player_id = some side) (hturn : side = E.team_on_turn g.game)
    (hjump : E.jump g.game fromSq toSq = (JumpResult.Good captured_piece crowned, game2))
    (hlight : env g.light_player.game_update_recipient = true)
    (hdark : env g.dark_player.game_update_recipient = true) :
    OngoingGame.jump E env g player_id fromSq toSq =
      ({ g with game := game2 },
        [(g.light_player.game_update_recipient,
          Msg.gameUpdate fromSq toSq crowned captured_piece (E.team_on_turn game2) (E.winner game2)),
         (g.dark_player.game_update_recipient,
          Msg.gameUpdate fromSq toSq crowned captured_piece (E.team_on_turn game2) (E.winner game2))],
        true) := by
  have hont : OngoingGame.is_on_turn E g player_id = true := by
    simp [OngoingGame.is_on_turn, hteam, hturn]
  unfold OngoingGame.jump
  rw [hont, hjump]
  simp [OngoingGame.send_updates, hlight, hdark]

/-- C2 witness: in `cgW` with `unitEngine`, the on-turn light player 1
moves 0 → 1; both players' update channels (11 and 21) receive the same
`GameUpdate` with post-move turn holder Dark and no winner. -/
theorem C2_witness :
    OngoingGame.jump unitEngine envTrue cgW 1 0 1 =
      ({ cgW with game := 1 },
        [(cgW.light_player.game_update_recipient,
          Msg.gameUpdate 0 1 false none (unitEngine.team_on_turn 1) (unitEngine.winner 1)),
         (cgW.dark_player.game_update_recipient,
          Msg.gameUpdate 0 1 false none (unitEngine.team_on_turn 1) (unitEngine.winner 1))],
        true) :=
  C2_accepted_move_broadcast unitEngine envTrue cgW 1 0 1 Team.Light none false 1
    (by decide) (by decide) (by decide) rfl rfl

/-- C3: an enqueue with an empty pending slot stores the request and
returns nothing; an enqueue with a pending request pairs the pending and
the incoming request (the coin picking which is Light, the other Dark)
under the current counter value and bumps the counter; over any request
sequence from a fresh matchmaker the produced pairings are exactly the
1st-with-2nd, 3rd-with-4th, … requests, and their match ids are
0, 1, 2, … in order (strictly increasing from 0). -/
theorem C3_matchmaker_pairing :
    (∀ (m : Matchmaker) (mu : Matchup) (c : Bool), m.enqueued = none →
      m.matchup mu c = ({ enqueued := some mu, last_match_id := m.last_match_id }, none))
    ∧ (∀ (m : Matchmaker) (q mu : Matchup) (c : Bool), m.enqueued = some q →
      m.matchup mu c = ({ enqueued := none, last_match_id := m.last_match_id + 1 },
        some (if c then q else mu, if c then mu else q, m.last_match_id)))
    ∧ (∀ rs : List (Matchup × Bool), (runMatchmaker Matchmaker.new rs).2 = specPairsAux none 0 rs)
    ∧ (∀ rs : List (Matchup × Bool),
      ((runMatchmaker Matchmaker.new rs).2).map (fun p => p.2.2) =
        List.range ((runMatchmaker Matchmaker.new rs).2.length)) := by
  refine ⟨?_, ?_, ?_, ?_⟩
  · intro m mu c h
    simp [Matchmaker.matchup, h]
  · intro m q mu c h
    simp [Matchmaker.matchup, h, Nat.add_sub_cancel]
  · intro rs
    exact runMatchmaker_eq_specPairsAux rs none 0
  · intro rs
    unfold Matchmaker.new
    rw [runMatchmaker_eq_specPairsAux rs none 0, specPairsAux_ids rs none 0, List.range_eq_range']

/-- C3 witness: a first request is stored; a second request is paired
with it under match id 0. -/
theorem C3_witness :
    Matchmaker.matchup { enqueued := none, last_match_id := 0 } (mkMu 1 100) false =
      ({ enqueued := some (mkMu 1 100), last_match_id := 0 }, none) ∧
    Matchmaker.matchup { enqueued := some (mkMu 1 100), last_match_id := 0 } (mkMu 2 200) false =
      ({ enqueued := none, last_match_id := 0 + 1 },
        some (if false then mkMu 1 100 else mkMu 2 200,
          if false then mkMu 2 200 else mkMu 1 100, 0)) :=
  ⟨C3_matchmaker_pairing.1 _ _ _ rfl, C3_matchmaker_pairing.2.1 _ _ _ _ rfl⟩

/-- C6 counterexample: enqueueing the same player id 7 twice in a row
produces a pairing whose two requests carry the same player id — the
matchmaker never compares player ids, so a player can be paired with
themself. -/
theorem C6_counterexample :
    (runMatchmaker Matchmaker.new [(mkMu 7 100, false), (mkMu 7 200, false)]).2 =
      [(mkMu 7 200, mkMu 7 100, 0)] ∧
    (mkMu 7 200).player_id = (mkMu 7 100).player_id := by decide

/-- C6 amended: a pairing always consumes the pending slot and pairs the
stored pending request with the incoming request (two distinct request
objects, one per side); the paired requests carry different player ids
iff the incoming request's player id differs from the pending one's —
nothing prevents a player enqueued twice from being paired with
themself. -/
theorem C6_pairing_consumes_pending (m : Matchmaker) (q mu : Matchup) (c : Bool)
    (h : m.enqueued = some q) :
    ∃ pr : Matchup × Matchup × GameID,
      m.matchup mu c = ({ enqueued := none, last_match_id := m.last_match_id + 1 }, some pr) ∧
      ((pr.1 = q ∧ pr.2.1 = mu) ∨ (pr.1 = mu ∧ pr.2.1 = q)) ∧
      (pr.1.player_id ≠ pr.2.1.player_id ↔ mu.player_id ≠ q.player_id) := by
  cases c with
  | true =>
    refine ⟨(q, mu, m.last_match_id), ?_, Or.inl ⟨rfl, rfl⟩, ne_comm⟩
    simp [Matchmaker.matchup, h, Nat.add_sub_cancel]
  | false =>
    refine ⟨(mu, q, m.last_match_id), ?_, Or.inr ⟨rfl, rfl⟩, Iff.rfl⟩
    simp [Matchmaker.matchup, h, Nat.add_sub_cancel]

/-- C6 witness: pairing the pending request of player 7 with an incoming
request of the same player 7. -/
theorem C6_witness :
    ∃ pr : Matchup × Matchup × GameID,
      Matchmaker.matchup { enqueued := some (mkMu 7 100), last_match_id := 0 } (mkMu 7 200) false =
        ({ enqueued := none, last_match_id := 0 + 1 }, some pr) ∧
      ((pr.1 = mkMu 7 100 ∧ pr.2.1 = mkMu 7 200) ∨
        (pr.1 = mkMu 7 200 ∧ pr.2.1 = mkMu 7 100)) ∧
      (pr.1.player_id ≠ pr.2.1.player_id ↔ (mkMu 7 200).player_id ≠ (mkMu 7 100).player_id) :=
  C6_pairing_consumes_pending _ _ _ _ rfl

/-- C7 counterexample: with an engine instance that reports a winner yet
still accepts a move from the on-turn player (`cheatEngine`),
`OngoingGame::jump` mutates the session and broadcasts a `GameUpdate` to
both players — the session layer has no finished-state check, so a
winner being present does not by itself make subsequent moves rejected. -/
theorem C7_counterexample :
    cheatEngine.winner cgW.game = some Team.Light ∧
    OngoingGame.jump cheatEngine envTrue cgW 1 0 1 =
      ({ cgW with game := 1 },
        [(11, Msg.gameUpdate 0 1 false none Team.Light (some Team.Light)),
         (21, Msg.gameUpdate 0 1 false none Team.Light (some Team.Light))],
        true) ∧
    ({ cgW with game := 1 } : OngoingGame Nat) ≠ cgW := by decide

/-- C7 amended: `OngoingGame::jump` itself performs no finished-state
check; once a winner is present, a move is rejected exactly insofar as
the rule engine rejects it. Provided the engine rejects every move
without mutating once it reports a winner, a post-winner `jump` leaves
the session unchanged and every delivery attempt it makes is a `BadJump`
(never a `GameUpdate`). -/
theorem C7_finished_no_mutation_if_engine_rejects (E : Engine G T) (env : ChanId → Bool)
    (g : OngoingGame G) (player_id : PlayerID) (fromSq toSq : Nat) (w : Team)
    (hW : E.winner g.game = some w)
    (hE : ∀ g0 a b w0, E.winner g0 = some w0 → E.jump g0 a b = (JumpResult.Bad, g0)) :
    (OngoingGame.jump E env g player_id fromSq toSq).1 = g ∧
    ∀ c m, (c, m) ∈ (OngoingGame.jump E env g player_id fromSq toSq).2.1 → m = Msg.badJump := by
  have hsb : ∀ (g1 : OngoingGame G) (c : ChanId) (m : Msg T),
      (c, m) ∈ (OngoingGame.send_bad_jump env g1 player_id).1 → m = Msg.badJump := by
    intro g1 c m hm
    unfold OngoingGame.send_bad_jump at hm
    cases hr : g1.bad_jump_recipient player_id with
    | some ch =>
      rw [hr] at hm
      simp at hm
      exact hm.2
    | none =>
      rw [hr] at hm
      simp at hm
  have hj : E.jump g.game fromSq toSq = (JumpResult.Bad, g.game) := hE g.game fromSq toSq w hW
  unfold OngoingGame.jump
  by_cases hont : OngoingGame.is_on_turn E g player_id
  · rw [if_pos hont, hj]
    exact ⟨rfl, fun c m hm => hsb _ c m hm⟩
  · rw [if_neg hont]
    exact ⟨rfl, fun c m hm => hsb _ c m hm⟩

/-- C7 witness: with `finEngine` at state 6 (winner present, engine
rejects all moves), a post-winner move leaves session `cg6` unchanged
and only `BadJump` is ever attempted. -/
theorem C7_witness :
    (OngoingGame.jump finEngine envTrue cg6 1 0 1).1 = cg6 ∧
    ∀ c m, (c, m) ∈ (OngoingGame.jump finEngine envTrue cg6 1 0 1).2.1 → m = Msg.badJump :=
  C7_finished_no_mutation_if_engine_rejects finEngine envTrue cg6 1 0 1 Team.Light (by decide)
    (by
      intro g0 a b w0 h
      simp only [finEngine] at h ⊢
      by_cases h5 : 5 ≤ g0
      · rw [if_pos h5]
      · rw [if_neg h5] at h
        exact absurd h (by simp))

/-- C9 (code behavior at the failing input): when the light player's
channel rejects delivery, the `.unwrap()` in `send_game_state` /
`send_updates` panics after the first failed attempt and the dark
player's delivery is never attempted — the attempt list contains only the
failed light-channel attempt, contradicting the claim that the other
participant's delivery is still attempted. -/
theorem C9_delivery_failure_aborts :
    OngoingGame.send_game_state unitEngine (fun c => c != 10) cgW =
      ([(10, Msg.gameState () Team.Light none)], false) ∧
    OngoingGame.send_updates unitEngine (fun c => c != 11) cgW 0 1 none false =
      ([(11, Msg.gameUpdate 0 1 false none Team.Light none)], false) := by decide

theorem lookupA_cons {β : Type} (k : Nat) (v : β) (l : List (Nat × β)) (k2 : Nat) :
    lookupA ((k, v) :: l) k2 = if k = k2 then some v else lookupA l k2 := rfl

theorem inv_new : (GameMaster.new : GameMaster G).Inv := by
  refine ⟨?_, ?_, ?_⟩
  · intro pid gid hp
    simp [GameMaster.new, lookupA] at hp
  · intro gid og hg
    simp [GameMaster.new, lookupA] at hg
  · intro gid hg
    simp [GameMaster.new, lookupA] at hg

theorem handle_matchup_none (E : Engine G T) (env : ChanId → Bool) (gm : GameMaster G)
    (mu : Matchup) (coin : Bool) (h : gm.matchmaker.enqueued = none) :
    GameMaster.handle_matchup E env gm mu coin =
      ({ gm with matchmaker :=
          { enqueued := some mu, last_match_id := gm.matchmaker.last_match_id } }, [], true) := by
  have hm : gm.matchmaker.matchup mu coin =
      ({ enqueued := some mu, last_match_id := gm.matchmaker.last_match_id }, none) := by
    simp [Matchmaker.matchup, h]
  unfold GameMaster.handle_matchup
  rw [hm]

theorem handle_matchup_some (E : Engine G T) (env : ChanId → Bool) (gm : GameMaster G)
    (mu q light dark : Matchup) (coin : Bool)
    (h : gm.matchmaker.enqueued = some q)
    (hld : (light, dark) = if coin then (q, mu) else (mu, q)) :
    GameMaster.handle_matchup E env gm mu coin =
      GameMaster.install_game E env
        { gm with matchmaker :=
            { enqueued := none, last_match_id := gm.matchmaker.last_match_id + 1 } }
        light dark gm.matchmaker.last_match_id := by
  have hA : light = if coin then q else mu := by
    cases coin <;> simpa using congrArg Prod.fst hld
  have hB : dark = if coin then mu else q := by
    cases coin <;> simpa using congrArg Prod.snd hld
  rw [hA, hB]
  have hm : gm.matchmaker.matchup mu coin =
      ({ enqueued := none, last_match_id := gm.matchmaker.last_match_id + 1 },
        some (if coin then q else mu, if coin then mu else q, gm.matchmaker.last_match_id)) := by
    simp [Matchmaker.matchup, h, Nat.add_sub_cancel]
  unfold GameMaster.handle_matchup
  rw [hm]

theorem handle_jump_none (E : Engine G T) (env : ChanId → Bool) (gm : GameMaster G)
    (player_id : PlayerID) (a b : Nat) (h : lookupA gm.players_in_games player_id = none) :
    GameMaster.handle_jump E env gm player_id a b = (gm, [], false) := by
  unfold GameMaster.handle_jump
  rw [h]

theorem handle_jump_nogame (E : Engine G T) (env : ChanId → Bool) (gm : GameMaster G)
    (player_id : PlayerID) (a b : Nat) (gid : GameID)
    (h : lookupA gm.players_in_games player_id = some gid)
    (h2 : lookupA gm.games gid = none) :
    GameMaster.handle_jump E env gm player_id a b = (gm, [], false) := by
  unfold GameMaster.handle_jump
  rw [h]
  show GameMaster.jump_in_game E env gm gid player_id a b = (gm, [], false)
  unfold GameMaster.jump_in_game
  rw [h2]

theorem handle_jump_some (E : Engine G T) (env : ChanId → Bool) (gm : GameMaster G)
    (player_id : PlayerID) (a b : Nat) (gid : GameID) (og : OngoingGame G)
    (h : lookupA gm.players_in_games player_id = some gid)
    (h2 : lookupA gm.games gid = some og) :
    GameMaster.handle_jump E env gm player_id a b =
      ({ gm with games := updateA gm.games gid (OngoingGame.jump E env og player_id a b).1 },
        (OngoingGame.jump E env og player_id a b).2.1,
        (OngoingGame.jump E env og player_id a b).2.2) := by
  unfold GameMaster.handle_jump
  rw [h]
  show GameMaster.jump_in_game E env gm gid player_id a b = _
  unfold GameMaster.jump_in_game
  rw [h2]

theorem inv_insert_game (gm : GameMaster G) (game : OngoingGame G) (mm2 : Matchmaker)
    (hmm : mm2.last_match_id = gm.matchmaker.last_match_id + 1) (h : gm.Inv) :
    GameMaster.Inv
      { matchmaker := mm2,
        games := (gm.matchmaker.last_match_id, game) :: gm.games,
        players_in_games :=
          (game.dark_player.id, gm.matchmaker.last_match_id) ::
            (game.light_player.id, gm.matchmaker.last_match_id) :: gm.players_in_games } := by
  obtain ⟨h1, h2, h3⟩ := h
  refine ⟨?_, ?_, ?_⟩
  · intro pid gid hp
    by_cases hd : game.dark_player.id = pid
    · rw [lookupA_cons, if_pos hd] at hp
      obtain rfl : gm.matchmaker.last_match_id = gid := Option.some.inj hp
      refine ⟨game, ?_, Or.inr hd⟩
      rw [lookupA_cons, if_pos rfl]
    · rw [lookupA_cons, if_neg hd] at hp
      by_cases hl : game.light_player.id = pid
      · rw [lookupA_cons, if_pos hl] at hp
        obtain rfl : gm.matchmaker.last_match_id = gid := Option.some.inj hp
        refine ⟨game, ?_, Or.inl hl⟩
        rw [lookupA_cons, if_pos rfl]
      · rw [lookupA_cons, if_neg hl] at hp
        obtain ⟨og, hog, hpart⟩ := h1 pid gid hp
        have hlt : gid < gm.matchmaker.last_match_id := h3 gid (by rw [hog]; rfl)
        have hne : ¬ gm.matchmaker.last_match_id = gid := by
          intro hh
          rw [hh] at hlt
          exact Nat.lt_irrefl gid hlt
        refine ⟨og, ?_, hpart⟩
        rw [lookupA_cons, if_neg hne]
        exact hog
  · intro gid og0 hg0
    by_cases hn : gm.matchmaker.last_match_id = gid
    · rw [lookupA_cons, if_pos hn] at hg0
      obtain rfl : game = og0 := Option.some.inj hg0
      constructor
      · by_cases hdl : game.dark_player.id = game.light_player.id
        · rw [lookupA_cons, if_pos hdl]
          rfl
        · rw [lookupA_cons, if_neg hdl, lookupA_cons, if_pos rfl]
          rfl
      · rw [lookupA_cons, if_pos rfl]
        rfl
    · rw [lookupA_cons, if_neg hn] at hg0
      obtain ⟨ha, hb⟩ := h2 gid og0 hg0
      exact ⟨lookupA_cons_isSome _ _ _ _ (lookupA_cons_isSome _ _ _ _ ha),
        lookupA_cons_isSome _ _ _ _ (lookupA_cons_isSome _ _ _ _ hb)⟩
  · intro gid hg0
    rw [hmm]
    by_cases hn : gm.matchmaker.last_match_id = gid
    · rw [← hn]
      exact Nat.lt_succ_self gm.matchmaker.last_match_id
    · rw [lookupA_cons, if_neg hn] at hg0
      exact Nat.lt_succ_of_lt (h3 gid hg0)

theorem inv_install_game (E : Engine G T) (env : ChanId → Bool) (gm : GameMaster G)
    (light dark : Matchup) (h : gm.Inv) :
    GameMaster.Inv
      (GameMaster.install_game E env
        { gm with matchmaker :=
            { enqueued := none, last_match_id := gm.matchmaker.last_match_id + 1 } }
        light dark gm.matchmaker.last_match_id).1 := by
  simp only [GameMaster.install_game]
  by_cases hs : (OngoingGame.send_game_state E env (pairedGame E light dark)).2
  · rw [if_pos hs]
    by_cases he : env light.game_found_recipient
    · rw [if_pos he]
      exact inv_insert_game gm (pairedGame E light dark)
        { enqueued := none, last_match_id := gm.matchmaker.last_match_id + 1 } rfl h
    · rw [if_neg he]
      exact inv_insert_game gm (pairedGame E light dark)
        { enqueued := none, last_match_id := gm.matchmaker.last_match_id + 1 } rfl h
  · rw [if_neg hs]
    exact ⟨h.1, h.2.1, fun gid hg => Nat.lt_succ_of_lt (h.2.2 gid hg)⟩

theorem inv_step (E : Engine G T) (env : ChanId → Bool) (gm : GameMaster G) (r : Req)
    (h : gm.Inv) : ((GameMaster.step E env gm r).1).Inv := by
  cases r with
  | matchupReq mu coin =>
    show ((GameMaster.handle_matchup E env gm mu coin).1).Inv
    cases he : gm.matchmaker.enqueued with
    | none =>
      rw [handle_matchup_none E env gm mu coin he]
      exact ⟨h.1, h.2.1, h.2.2⟩
    | some q =>
      rw [handle_matchup_some E env gm mu q (if coin then q else mu) (if coin then mu else q)
        coin he (by cases coin <;> rfl)]
      exact inv_install_game E env gm _ _ h
  | jumpReq pid a b =>
    show ((GameMaster.handle_jump E env gm pid a b).1).Inv
    cases hp : lookupA gm.players_in_games pid with
    | none =>
      rw [handle_jump_none E env gm pid a b hp]
      exact h
    | some gid =>
      cases hg : lookupA gm.games gid with
      | none =>
        rw [handle_jump_nogame E env gm pid a b gid hp hg]
        exact h
      | some og =>
        rw [handle_jump_some E env gm pid a b gid og hp hg]
        obtain ⟨h1, h2, h3⟩ := h
        obtain ⟨hl, hd⟩ := jump_preserves_players E env og pid a b
        refine ⟨?_, ?_, ?_⟩
        · intro pid0 gid0 hp0
          obtain ⟨og0, hog0, hpart⟩ := h1 pid0 gid0 hp0
          by_cases hgg : gid0 = gid
          · have hog2 : lookupA gm.games gid0 = some og := by rw [hgg]; exact hg
            have hoo : og0 = og := by
              rw [hog0] at hog2
              exact Option.some.inj hog2
            refine ⟨(OngoingGame.jump E env og pid a b).1, ?_, ?_⟩
            · rw [hgg]
              exact lookupA_updateA_self gm.games gid _ og hg
            · rw [hl, hd, ← hoo]
              exact hpart
          · refine ⟨og0, ?_, hpart⟩
            rw [lookupA_updateA_ne gm.games gid gid0 _ hgg]
            exact hog0
        · intro gid0 og0 hg0
          by_cases hgg : gid0 = gid
          · have hup : lookupA (updateA gm.games gid (OngoingGame.jump E env og pid a b).1) gid =
                some (OngoingGame.jump E env og pid a b).1 :=
              lookupA_updateA_self gm.games gid _ og hg
            rw [hgg] at hg0
            have hoo : og0 = (OngoingGame.jump E env og pid a b).1 :=
              Option.some.inj (hg0.symm.trans hup)
            rw [hoo, hl, hd]
            exact h2 gid og hg
          · rw [lookupA_updateA_ne gm.games gid gid0 _ hgg] at hg0
            exact h2 gid0 og0 hg0
        · intro gid0 hg0
          rw [lookupA_updateA_isSome] at hg0
          exact h3 gid0 hg0

theorem inv_runGM (E : Engine G T) (env : ChanId → Bool) (rs : List Req) :
    ∀ gm : GameMaster G, gm.Inv → (runGM E env gm rs).Inv := by
  induction rs with
  | nil => intro gm h; exact h
  | cons r rest ih =>
    intro gm h
    unfold runGM
    by_cases hok : (GameMaster.step E env gm r).2.2
    · rw [if_pos hok]
      exact ih _ (inv_step E env gm r h)
    · rw [if_neg hok]
      exact inv_step E env gm r h

theorem inv_reachable (E : Engine G T) (env : ChanId → Bool) (gm : GameMaster G)
    (h : GameMaster.Reachable E env gm) : gm.Inv := by
  obtain ⟨rs, hr⟩ := h
  rw [← hr]
  exact inv_runGM E env rs GameMaster.new inv_new

theorem matchup_mono (E : Engine G T) (env : ChanId → Bool) (gm : GameMaster G)
    (mu : Matchup) (coin : Bool) :
    (∀ gid, (lookupA gm.games gid).isSome = true →
      (lookupA (GameMaster.handle_matchup E env gm mu coin).1.games gid).isSome = true) ∧
    (∀ pid, (lookupA gm.players_in_games pid).isSome = true →
      (lookupA (GameMaster.handle_matchup E env gm mu coin).1.players_in_games pid).isSome = true) := by
  cases he : gm.matchmaker.enqueued with
  | none =>
    rw [handle_matchup_none E env gm mu coin he]
    exact ⟨fun gid hx => hx, fun pid hx => hx⟩
  | some q =>
    rw [handle_matchup_some E env gm mu q (if coin then q else mu) (if coin then mu else q)
      coin he (by cases coin <;> rfl)]
    simp only [GameMaster.install_game]
    by_cases hs : (OngoingGame.send_game_state E env
      (pairedGame E (if coin then q else mu) (if coin then mu else q))).2
    · rw [if_pos hs]
      by_cases hgf : env (if coin then q else mu).game_found_recipient
      · rw [if_pos hgf]
        exact ⟨fun gid hx => lookupA_cons_isSome _ _ _ _ hx,
          fun pid hx => lookupA_cons_isSome _ _ _ _ (lookupA_cons_isSome _ _ _ _ hx)⟩
      · rw [if_neg hgf]
        exact ⟨fun gid hx => lookupA_cons_isSome _ _ _ _ hx,
          fun pid hx => lookupA_cons_isSome _ _ _ _ (lookupA_cons_isSome _ _ _ _ hx)⟩
    · rw [if_neg hs]
      exact ⟨fun gid hx => hx, fun pid hx => hx⟩

theorem jump_mono (E : Engine G T) (env : ChanId → Bool) (gm : GameMaster G)
    (pid0 : PlayerID) (a b : Nat) :
    (∀ gid, (lookupA gm.games gid).isSome = true →
      (lookupA (GameMaster.handle_jump E env gm pid0 a b).1.games gid).isSome = true) ∧
    (∀ pid, (lookupA gm.players_in_games pid).isSome = true →
      (lookupA (GameMaster.handle_jump E env gm pid0 a b).1.players_in_games pid).isSome = true) := by
  cases hp : lookupA gm.players_in_games pid0 with
  | none =>
    rw [handle_jump_none E env gm pid0 a b hp]
    exact ⟨fun gid hx => hx, fun pid hx => hx⟩
  | some gid1 =>
    cases hg : lookupA gm.games gid1 with
    | none =>
      rw [handle_jump_nogame E env gm pid0 a b gid1 hp hg]
      exact ⟨fun gid hx => hx, fun pid hx => hx⟩
    | some og =>
      rw [handle_jump_some E env gm pid0 a b gid1 og hp hg]
      refine ⟨fun gid hx => ?_, fun pid hx => hx⟩
      rw [lookupA_updateA_isSome]
      exact hx

theorem step_mono (E : Engine G T) (env : ChanId → Bool) (gm : GameMaster G) (r : Req) :
    (∀ gid, (lookupA gm.games gid).isSome = true →
      (lookupA (GameMaster.step E env gm r).1.games gid).isSome = true) ∧
    (∀ pid, (lookupA gm.players_in_games pid).isSome = true →
      (lookupA (GameMaster.step E env gm r).1.players_in_games pid).isSome = true) := by
  cases r with
  | matchupReq mu coin => exact matchup_mono E env gm mu coin
  | jumpReq pid a b => exact jump_mono E env gm pid a b

theorem runGM_mono (E : Engine G T) (env : ChanId → Bool) (rs : List Req) :
    ∀ gm : GameMaster G,
      (∀ gid, (lookupA gm.games gid).isSome = true →
        (lookupA (runGM E env gm rs).games gid).isSome = true) ∧
      (∀ pid, (lookupA gm.players_in_games pid).isSome = true →
        (lookupA (runGM E env gm rs).players_in_games pid).isSome = true) := by
  induction rs with
  | nil => intro gm; exact ⟨fun _ hx => hx, fun _ hx => hx⟩
  | cons r rest ih =>
    intro gm
    unfold runGM
    by_cases hok : (GameMaster.step E env gm r).2.2
    · rw [if_pos hok]
      exact ⟨fun gid hx => (ih _).1 gid ((step_mono E env gm r).1 gid hx),
        fun pid hx => (ih _).2 pid ((step_mono E env gm r).2 pid hx)⟩
    · rw [if_neg hok]
      exact ⟨(step_mono E env gm r).1, (step_mono E env gm r).2⟩

theorem install_game_run (E : Engine G T) (env : ChanId → Bool) (gm1 : GameMaster G)
    (light dark : Matchup) (game_id : GameID)
    (h1 : env light.game_state_recipient = true) (h2 : env dark.game_state_recipient = true)
    (h3 : env light.game_found_recipient = true) (h4 : env dark.game_found_recipient = true) :
    GameMaster.install_game E env gm1 light dark game_id =
      ({ gm1 with
          games := (game_id, pairedGame E light dark) :: gm1.games,
          players_in_games :=
            (dark.player_id, game_id) :: (light.player_id, game_id) :: gm1.players_in_games },
        [(light.game_state_recipient,
           Msg.gameState (E.table E.new) (E.team_on_turn E.new) (E.winner E.new)),
         (dark.game_state_recipient,
           Msg.gameState (E.table E.new) (E.team_on_turn E.new) (E.winner E.new)),
         (light.game_found_recipient, Msg.gameFound game_id light.player_id dark.player_id),
         (dark.game_found_recipient, Msg.gameFound game_id light.player_id dark.player_id)],
        true) := by
  unfold GameMaster.install_game OngoingGame.send_game_state
  simp [pairedGame, h1, h2, h3, h4]

/-- C4 counterexample: after the request sequence `rs4` (players 1 and 2
paired into game 0, then player 1 re-enqueued and paired with player 3
into game 1), player 1 is a participant of the two distinct stored
sessions 0 and 1 — so a player does not belong to at most one active
session — and player 1's mapping points at game 1 although player 1 is a
participant of the stored session 0, so membership in the mapping is not
equivalent to being a participant of the session under a given match id. -/
theorem C4_counterexample :
    (lookupA gm4.games 0).map (fun og => og.dark_player.id) = some 1 ∧
    (lookupA gm4.games 1).map (fun og => og.dark_player.id) = some 1 ∧
    lookupA gm4.players_in_games 1 = some 1 ∧ (0 : GameID) ≠ 1 := by decide

/-- C4 amended: in every reachable orchestrator state, every mapped
player id points at a stored session of which it is a participant, both
participants of every stored session are present in the player mapping,
and every stored game id is below the matchmaker's counter; but a player
may be a participant of several stored sessions (re-enqueueing is not
prevented), so `at most one active session per player` does not hold. -/
theorem C4_registry_invariant (E : Engine G T) (env : ChanId → Bool) (rs : List Req) :
    GameMaster.Inv (runGM E env (GameMaster.new : GameMaster G) rs) :=
  inv_runGM E env rs GameMaster.new inv_new

/-- C4 witness: the registry invariant holds of the concrete state
reached by the run `rs4`. -/
theorem C4_witness : GameMaster.Inv (runGM unitEngine envTrue GameMaster.new rs4) :=
  C4_registry_invariant unitEngine envTrue rs4

/-- C5: in every reachable orchestrator state, a move request from a
player id absent from `players_in_games` hits `unimplemented!()`:
processing aborts (completion flag `false`) with no delivery attempt and
no state change; for a present player id the mapped session always
resolves (the `.expect` lookup cannot fail, by the registry invariant)
and the request is delegated to that session's `jump`, whose result is
installed in place. -/
theorem C5_move_routing (E : Engine G T) (env : ChanId → Bool) (gm : GameMaster G)
    (hreach : GameMaster.Reachable E env gm) (player_id : PlayerID) (fromSq toSq : Nat) :
    (lookupA gm.players_in_games player_id = none →
      GameMaster.handle_jump E env gm player_id fromSq toSq = (gm, [], false))
    ∧ (∀ game_id, lookupA gm.players_in_games player_id = some game_id →
      ∃ og, lookupA gm.games game_id = some og ∧
        GameMaster.handle_jump E env gm player_id fromSq toSq =
          ({ gm with games :=
              updateA gm.games game_id (OngoingGame.jump E env og player_id fromSq toSq).1 },
            (OngoingGame.jump E env og player_id fromSq toSq).2.1,
            (OngoingGame.jump E env og player_id fromSq toSq).2.2)) := by
  constructor
  · intro h
    exact handle_jump_none E env gm player_id fromSq toSq h
  · intro game_id hp
    obtain ⟨og, hog, hpart⟩ := (inv_reachable E env gm hreach).1 player_id game_id hp
    exact ⟨og, hog, handle_jump_some E env gm player_id fromSq toSq game_id og hp hog⟩

/-- C5 witness: in the empty initial state player 5 is unknown and the
handler aborts untouched; in the state `gmAB` (players 1 and 2 in game
0), player 1's move resolves session 0 and is delegated to it. -/
theorem C5_witness :
    (GameMaster.handle_jump unitEngine envTrue (GameMaster.new : GameMaster Nat) 5 0 1 =
      (GameMaster.new, [], false)) ∧
    ∃ og, lookupA gmAB.games 0 = some og ∧
      GameMaster.handle_jump unitEngine envTrue gmAB 1 0 1 =
        ({ gmAB with
            games := updateA gmAB.games 0 (OngoingGame.jump unitEngine envTrue og 1 0 1).1 },
          (OngoingGame.jump unitEngine envTrue og 1 0 1).2.1,
          (OngoingGame.jump unitEngine envTrue og 1 0 1).2.2) :=
  ⟨(C5_move_routing unitEngine envTrue GameMaster.new ⟨[], rfl⟩ 5 0 1).1 rfl,
   (C5_move_routing unitEngine envTrue gmAB ⟨rsAB, rfl⟩ 1 0 1).2 0 (by decide)⟩

/-- C8: a first matchup request is stored with no delivery attempt at
all; a second request is paired, and the handler makes exactly four
delivery attempts in order: the identical fresh-state `GameState`
snapshot (built from `CheckersGame::new()`) to the light then the dark
player's state channel, then the identical `GameFound` notice (same
match id, same light/dark player-id assignment) to the light then the
dark player's match-found channel, while the session is stored under the
new match id and both player ids are mapped to it. -/
theorem C8_matchup_broadcast (E : Engine G T) (env : ChanId → Bool) (gm : GameMaster G)
    (mu q light dark : Matchup) (coin : Bool) :
    (gm.matchmaker.enqueued = none →
      GameMaster.handle_matchup E env gm mu coin =
        ({ gm with matchmaker :=
            { enqueued := some mu, last_match_id := gm.matchmaker.last_match_id } }, [], true))
    ∧ (gm.matchmaker.enqueued = some q →
      (light, dark) = (if coin then (q, mu) else (mu, q)) →
      env light.game_state_recipient = true → env dark.game_state_recipient = true →
      env light.game_found_recipient = true → env dark.game_found_recipient = true →
      GameMaster.handle_matchup E env gm mu coin =
        ({ matchmaker := { enqueued := none, last_match_id := gm.matchmaker.last_match_id + 1 },
           games := (gm.matchmaker.last_match_id, pairedGame E light dark) :: gm.games,
           players_in_games :=
             (dark.player_id, gm.matchmaker.last_match_id) ::
               (light.player_id, gm.matchmaker.last_match_id) :: gm.players_in_games },
          [(light.game_state_recipient,
             Msg.gameState (E.table E.new) (E.team_on_turn E.new) (E.winner E.new)),
           (dark.game_state_recipient,
             Msg.gameState (E.table E.new) (E.team_on_turn E.new) (E.winner E.new)),
           (light.game_found_recipient,
             Msg.gameFound gm.matchmaker.last_match_id light.player_id dark.player_id),
           (dark.game_found_recipient,
             Msg.gameFound gm.matchmaker.last_match_id light.player_id dark.player_id)],
          true)) := by
  constructor
  · intro h
    exact handle_matchup_none E env gm mu coin h
  · intro henq hld e1 e2 e3 e4
    rw [handle_matchup_some E env gm mu q light dark coin henq hld,
      install_game_run E env _ light dark _ e1 e2 e3 e4]

/-- C8 witness: player 1 enqueues into the empty orchestrator and waits
silently; then player 2 enqueues into `gmA` and both players receive the
identical initial snapshot and the identical `GameFound` for match 0. -/
theorem C8_witness :
    (GameMaster.handle_matchup unitEngine envTrue (GameMaster.new : GameMaster Nat) muA false =
      ({ matchmaker := { enqueued := some muA, last_match_id := 0 },
         games := [], players_in_games := [] }, [], true)) ∧
    (GameMaster.handle_matchup unitEngine envTrue gmA muB false =
      ({ matchmaker := { enqueued := none, last_match_id := 1 },
         games := [(0, pairedGame unitEngine muB muA)],
         players_in_games := [(muA.player_id, 0), (muB.player_id, 0)] },
        [(muB.game_state_recipient,
           Msg.gameState (unitEngine.table unitEngine.new) (unitEngine.team_on_turn unitEngine.new)
             (unitEngine.winner unitEngine.new)),
         (muA.game_state_recipient,
           Msg.gameState (unitEngine.table unitEngine.new) (unitEngine.team_on_turn unitEngine.new)
             (unitEngine.winner unitEngine.new)),
         (muB.game_found_recipient, Msg.gameFound 0 muB.player_id muA.player_id),
         (muA.game_found_recipient, Msg.gameFound 0 muB.player_id muA.player_id)],
        true)) :=
  ⟨(C8_matchup_broadcast unitEngine envTrue GameMaster.new muA muA muA muA false).1 rfl,
   (C8_matchup_broadcast unitEngine envTrue gmA muB muA muB muA false).2
     rfl rfl rfl rfl rfl rfl⟩

/-- C10 counterexample: after `rsAB` player 1 is routed to session 0;
after the longer run `rs4` (which extends `rsAB`) the stored session 0
still exists, yet player 1 is routed to session 1 — the mapping entry
`1 ↦ 0` was overwritten, so the two players of a stored session do not
remain routed to it indefinitely. -/
theorem C10_counterexample :
    lookupA gmAB.players_in_games 1 = some 0 ∧
    lookupA gm4.players_in_games 1 = some 1 ∧
    (lookupA gm4.games 0).isSome = true ∧ ¬ ((1 : GameID) = 0) := by decide

/-- C10 amended: no operation removes a key from either mapping: over any
request sequence, every stored game id still resolves to a session
afterwards (sessions are never deleted, only their game state evolves)
and every mapped player id stays mapped; however a player's mapped match
id can be overwritten by a later pairing, so routing to an old session is
not permanent. -/
theorem C10_no_entry_removed (E : Engine G T) (env : ChanId → Bool) (gm : GameMaster G)
    (rs : List Req) :
    (∀ gid, (lookupA gm.games gid).isSome = true →
      (lookupA (runGM E env gm rs).games gid).isSome = true) ∧
    (∀ pid, (lookupA gm.players_in_games pid).isSome = true →
      (lookupA (runGM E env gm rs).players_in_games pid).isSome = true) :=
  runGM_mono E env rs gm

/-- C10 witness: extending the run `gmAB` by two further matchups keeps
game 0 stored and keeps player 2 mapped. -/
theorem C10_witness :
    (lookupA (runGM unitEngine envTrue gmAB
      [Req.matchupReq muA2 false, Req.matchupReq muC false]).games 0).isSome = true ∧
    (lookupA (runGM unitEngine envTrue gmAB
      [Req.matchupReq muA2 false, Req.matchupReq muC false]).players_in_games 2).isSome = true :=
  ⟨(C10_no_entry_removed unitEngine envTrue gmAB
      [Req.matchupReq muA2 false, Req.matchupReq muC false]).1 0 (by decide),
   (C10_no_entry_removed unitEngine envTrue gmAB
      [Req.matchupReq muA2 false, Req.matchupReq muC false]).2 2 (by decide)⟩
